import Mathlib

/-!
Shallow embedding of the booking core of the College Appointment System
(Express/Mongo backend). The two route modules in the repository
(availability routes and appointment routes) are embedded as pure
functions over an explicit store state. Instants are modelled as natural
numbers (minutes since an epoch); a stored slot `date` is the instant
produced by `new Date(dateString)` — midnight of the day for an ISO
calendar date. `startTime`/`endTime` are kept as the raw strings the
store holds.
-/

/-- Status values of an appointment, from the route validator
`isIn(['pending', 'confirmed', 'cancelled', 'completed'])`. -/
inductive AppStatus where
  | pending
  | confirmed
  | cancelled
  | completed
deriving Repr, DecidableEq

/-- An availability slot document: professor owner, stored date instant,
time strings, booked flag and optional booking student. -/
structure Slot where
  id : Nat
  professor : Nat
  date : Nat
  startTime : String
  endTime : String
  isBooked : Bool
  bookedBy : Option Nat
deriving Repr, DecidableEq

/-- An appointment document referencing a student, a professor and an
availability slot, with a snapshot of the slot timing. -/
structure Appointment where
  id : Nat
  student : Nat
  professor : Nat
  availability : Nat
  date : Nat
  startTime : String
  endTime : String
  notes : String
  status : AppStatus
deriving Repr, DecidableEq

/-- A user record from the identity store; only the role matters to the
booking core. -/
structure User where
  id : Nat
  role : String
deriving Repr, DecidableEq

/-- The shared persistent store: the Availability collection and the
Appointment collection. -/
structure Store where
  slots : List Slot
  appointments : List Appointment
deriving Repr, DecidableEq

/-- Value of a decimal digit character. -/
def digitVal (c : Char) : Nat := c.toNat - 48

/-- Whether a character is a decimal digit in the inclusive range given
by the two bounds, mirroring a regex character class such as `[0-5]`. -/
def digitBetween (lo hi : Nat) (c : Char) : Bool :=
  (48 + lo ≤ c.toNat) && (c.toNat ≤ 48 + hi)

/-- The route validator regex for times:
`/^([0-1]?[0-9]|2[0-3]):[0-5][0-9]$/`. The hour is one digit `[0-9]`,
or two digits `[0-1][0-9]` or `2[0-3]`; minutes are `[0-5][0-9]`. -/
def timeRegex (t : String) : Bool :=
  match t.data with
  | [h, c, m1, m2] =>
      c == ':' && digitBetween 0 9 h && digitBetween 0 5 m1 && digitBetween 0 9 m2
  | [h1, h2, c, m1, m2] =>
      c == ':' &&
      ((digitBetween 0 1 h1 && digitBetween 0 9 h2) ||
       (h1 == '2' && digitBetween 0 3 h2)) &&
      digitBetween 0 5 m1 && digitBetween 0 9 m2
  | _ => false

/-- Minutes past midnight denoted by a time string accepted by
`timeRegex` (0 on any other shape). -/
def timeMinutes (t : String) : Nat :=
  match t.data with
  | [h, _, m1, m2] => digitVal h * 60 + digitVal m1 * 10 + digitVal m2
  | [h1, h2, _, m1, m2] =>
      (digitVal h1 * 10 + digitVal h2) * 60 + digitVal m1 * 10 + digitVal m2
  | _ => 0

/-- Outcome of the create-slot route (`POST /`). -/
inductive CreateOutcome where
  | validationError
  | duplicate
  | endNotAfterStart
  | created (sl : Slot)
deriving Repr, DecidableEq

/-- The create-slot handler. The express-validator chain checks both
time strings against `timeRegex` (the date is taken already parsed to an
instant). Then the handler looks for a slot with identical
(professor, date, startTime, endTime) and rejects with Conflict; else it
saves a new slot.

Modelled from the spec: the Availability model file is not in the
sources; per the spec the model validates that endTime is chronologically
strictly after startTime (the route catch block maps that failure to a
400), and defaults `isBooked` to false and `bookedBy` to null. Mongoose
runs that validation at save time, after the duplicate lookup. -/
def createSlot (professorId date : Nat) (startTime endTime : String)
    (newId : Nat) (s : Store) : CreateOutcome × Store :=
  if !(timeRegex startTime && timeRegex endTime) then
    (.validationError, s)
  else
    match s.slots.find? (fun sl =>
        sl.professor == professorId && sl.date == date &&
        sl.startTime == startTime && sl.endTime == endTime) with
    | some _ => (.duplicate, s)
    | none =>
        if timeMinutes endTime ≤ timeMinutes startTime then
          (.endNotAfterStart, s)
        else
          let sl : Slot :=
            { id := newId, professor := professorId, date := date,
              startTime := startTime, endTime := endTime,
              isBooked := false, bookedBy := none }
          (.created sl, { s with slots := s.slots ++ [sl] })

/-- Outcome of the list-available-slots route
(`GET /professor/:professorId`). -/
inductive ListOutcome where
  | professorNotFound
  | ok (slots : List Slot)
deriving Repr, DecidableEq

/-- The list-available-slots handler. It resolves the professor id in
the identity store and 404s unless the user exists with role professor.
The query starts as `{ professor, isBooked: false, date: { $gte: new
Date() } }`; when a `date` query parameter is supplied, `query.date` is
overwritten with that date, replacing the `$gte` bound. -/
def listAvailableSlotsForProfessor (now : Nat) (users : List User)
    (professorId : Nat) (dateFilter : Option Nat) (s : Store) : ListOutcome :=
  match users.find? (fun u => u.id == professorId) with
  | none => .professorNotFound
  | some u =>
      if u.role != "professor" then .professorNotFound
      else
        match dateFilter with
        | none =>
            .ok (s.slots.filter (fun sl =>
              sl.professor == professorId && sl.isBooked == false &&
              now ≤ sl.date))
        | some d =>
            .ok (s.slots.filter (fun sl =>
              sl.professor == professorId && sl.isBooked == false &&
              sl.date == d))

/-- Outcome of the book route (`POST /book`). -/
inductive BookOutcome where
  | notFound
  | alreadyBooked
  | pastSlot
  | booked (a : Appointment)
deriving Repr, DecidableEq

/-- The write phase of the book handler, exactly the effect after all
checks pass: save a new appointment, then set `isBooked = true` and
`bookedBy` on the slot — an unconditional write of the document that was
read at the start of the handler.

Modelled from the spec: the Appointment model file is not in the
sources; per the spec an appointment is created on booking with
status = confirmed. -/
def bookCommit (studentId slotId newId : Nat) (notes : String) (av : Slot)
    (s : Store) : Store :=
  let appt : Appointment :=
    { id := newId, student := studentId, professor := av.professor,
      availability := slotId, date := av.date, startTime := av.startTime,
      endTime := av.endTime, notes := notes, status := .confirmed }
  { slots := s.slots.map (fun sl =>
      if sl.id == slotId then { sl with isBooked := true, bookedBy := some studentId }
      else sl),
    appointments := s.appointments ++ [appt] }

/-- The book handler. It loads the slot by id (404 if absent), rejects
with 400 if `isBooked`, rejects with 400 `'Cannot book past time slots'`
if `new Date(availability.date) < new Date()` — a comparison of the
stored date instant against the current instant — and otherwise runs the
two writes of `bookCommit`. -/
def bookSlot (now studentId slotId : Nat) (notes : String) (newId : Nat)
    (s : Store) : BookOutcome × Store :=
  match s.slots.find? (fun sl => sl.id == slotId) with
  | none => (.notFound, s)
  | some av =>
      if av.isBooked then (.alreadyBooked, s)
      else if av.date < now then (.pastSlot, s)
      else
        (.booked
          { id := newId, student := studentId, professor := av.professor,
            availability := slotId, date := av.date, startTime := av.startTime,
            endTime := av.endTime, notes := notes, status := .confirmed },
          bookCommit studentId slotId newId notes av s)

/-- Outcome of the cancel route (`PUT /cancel/:appointmentId`). -/
inductive CancelOutcome where
  | notFound
  | alreadyCancelled
  | cancelled (a : Appointment)
deriving Repr, DecidableEq

/-- The slot-freeing snippet shared by the cancel and status-update
handlers: reload the referenced slot by id and, when it still exists,
save it back with `isBooked = false` and `bookedBy = null`; when it no
longer exists, do nothing. -/
def freeSlot (sid : Nat) (s : Store) : Store :=
  match s.slots.find? (fun sl => sl.id == sid) with
  | none => s
  | some av =>
      { s with slots := s.slots.map (fun sl =>
          if sl.id == sid then { av with isBooked := false, bookedBy := none }
          else sl) }

/-- The appointment collection after saving the found appointment with a
new status: every document with the found appointment's id is replaced. -/
def saveStatus (apptId : Nat) (appt : Appointment) (status : AppStatus)
    (apps : List Appointment) : List Appointment :=
  apps.map (fun a => if a.id == apptId then { appt with status := status } else a)

/-- The cancel handler. It loads the appointment by id restricted to the
calling professor (404 if absent), rejects with 400 if the status is
already cancelled, else sets the status to cancelled and saves; then it
reloads the referenced slot and, when it still exists, resets
`isBooked = false` and `bookedBy = null`. -/
def cancelAppointment (professorId apptId : Nat) (s : Store) :
    CancelOutcome × Store :=
  match s.appointments.find? (fun a =>
      a.id == apptId && a.professor == professorId) with
  | none => (.notFound, s)
  | some appt =>
      if appt.status == AppStatus.cancelled then (.alreadyCancelled, s)
      else
        (.cancelled { appt with status := AppStatus.cancelled },
          freeSlot appt.availability
            { s with appointments :=
                saveStatus apptId appt AppStatus.cancelled s.appointments })

/-- Outcome of the status-update route (`PUT /:appointmentId/status`). -/
inductive UpdateOutcome where
  | notFound
  | updated (a : Appointment)
deriving Repr, DecidableEq

/-- The update-status handler. The body validator admits exactly the
four `AppStatus` values, so the status argument is already one of them.
The handler loads the appointment by id restricted to the calling
professor (404 if absent), sets the status unconditionally — there is no
already-cancelled check — and saves; when the new status is cancelled it
reloads the referenced slot and, when it exists, resets it. -/
def updateAppointmentStatus (professorId apptId : Nat) (status : AppStatus)
    (s : Store) : UpdateOutcome × Store :=
  match s.appointments.find? (fun a =>
      a.id == apptId && a.professor == professorId) with
  | none => (.notFound, s)
  | some appt =>
      if status == AppStatus.cancelled then
        (.updated { appt with status := status },
          freeSlot appt.availability
            { s with appointments := saveStatus apptId appt status s.appointments })
      else
        (.updated { appt with status := status },
          { s with appointments := saveStatus apptId appt status s.appointments })

/-!
Invariant layer: the cross-entity relationship between `isBooked` on a
slot and the non-cancelled appointments referencing it, and a small
operational semantics running sequences of handler calls against the
store. A freshly booked appointment receives an id not present in the
Appointment collection, as the document store would generate.
-/

/-- Whether some non-cancelled appointment in the collection references
the given slot id. -/
def hasActiveAppt (apps : List Appointment) (slotId : Nat) : Bool :=
  apps.any (fun a => a.availability == slotId && !(a.status == AppStatus.cancelled))

/-- The cross-entity relationship: each slot's `isBooked` flag agrees
with the existence of a non-cancelled appointment referencing it. -/
def slotFlagInvariant (s : Store) : Prop :=
  ∀ sl ∈ s.slots, sl.isBooked = hasActiveAppt s.appointments sl.id

/-- At most one non-cancelled appointment references any given slot. -/
def activeUnique (s : Store) : Prop :=
  ∀ a1 ∈ s.appointments, ∀ a2 ∈ s.appointments,
    a1.status ≠ AppStatus.cancelled → a2.status ≠ AppStatus.cancelled →
    a1.availability = a2.availability → a1 = a2

/-- The inductive invariant maintained by the booking coordinator:
appointment ids are pairwise distinct, the flag relationship holds, and
slots are singly referenced by active appointments. -/
def coordInv (s : Store) : Prop :=
  (s.appointments.map (fun a => a.id)).Nodup ∧
  slotFlagInvariant s ∧ activeUnique s

instance (s : Store) : Decidable (slotFlagInvariant s) := by
  unfold slotFlagInvariant; infer_instance

instance (s : Store) : Decidable (activeUnique s) := by
  unfold activeUnique; infer_instance

instance (s : Store) : Decidable (coordInv s) := by
  unfold coordInv; infer_instance

/-- An id strictly larger than every appointment id in the collection,
standing for the fresh document id the store generates. -/
def freshApptId (apps : List Appointment) : Nat :=
  apps.foldr (fun a m => max a.id m) 0 + 1

/-- The operations of the amended C1 sequence: student bookings and
professor cancellations. -/
inductive Op where
  | book (now studentId slotId : Nat) (notes : String)
  | cancel (professorId apptId : Nat)

/-- Apply one operation to the store, keeping only the state change. -/
def applyOp (s : Store) : Op → Store
  | .book now st sl notes => (bookSlot now st sl notes (freshApptId s.appointments) s).2
  | .cancel p a => (cancelAppointment p a s).2

/-- Run a sequence of operations left to right. -/
def runOps (s : Store) (ops : List Op) : Store := ops.foldl applyOp s

theorem id_le_foldr_max (apps : List Appointment) :
    ∀ a ∈ apps, a.id ≤ apps.foldr (fun a m => max a.id m) 0 := by
  induction apps with
  | nil => intro a ha; cases ha
  | cons b bs ih =>
      intro a ha
      rcases List.mem_cons.mp ha with rfl | h
      · exact le_max_left _ _
      · exact le_trans (ih a h) (le_max_right _ _)

theorem freshApptId_not_mem (apps : List Appointment) :
    ∀ a ∈ apps, a.id ≠ freshApptId apps := by
  intro a ha
  have := id_le_foldr_max apps a ha
  unfold freshApptId
  omega

theorem nodup_id_unique {apps : List Appointment}
    (hnd : (apps.map (fun a => a.id)).Nodup) {a b : Appointment}
    (ha : a ∈ apps) (hb : b ∈ apps) (hid : a.id = b.id) : a = b :=
  List.inj_on_of_nodup_map hnd ha hb hid

theorem hasActiveAppt_append_other (apps : List Appointment) (a : Appointment)
    (sid : Nat) (h : a.availability ≠ sid) :
    hasActiveAppt (apps ++ [a]) sid = hasActiveAppt apps sid := by
  unfold hasActiveAppt
  rw [List.any_append]
  simp [h]

theorem bookSlot_preserves_coordInv (now st slid : Nat) (notes : String)
    (s : Store) (h : coordInv s) :
    coordInv (bookSlot now st slid notes (freshApptId s.appointments) s).2 := by
  obtain ⟨hnd, hflag, huniq⟩ := h
  unfold bookSlot
  cases hf : s.slots.find? (fun sl => sl.id == slid) with
  | none => exact ⟨hnd, hflag, huniq⟩
  | some av =>
      have havmem : av ∈ s.slots := List.mem_of_find?_eq_some hf
      have havid : av.id = slid := by simpa using List.find?_some hf
      by_cases hb : av.isBooked = true
      · simp only [hb, if_true]
        exact ⟨hnd, hflag, huniq⟩
      · have hbf : av.isBooked = false := by simpa using hb
        by_cases hp : av.date < now
        · simp only [hbf, hp, if_false, if_true, Bool.false_eq_true]
          exact ⟨hnd, hflag, huniq⟩
        · simp only [hbf, hp, if_false, Bool.false_eq_true]
          show coordInv (bookCommit st slid (freshApptId s.appointments) notes av s)
          unfold bookCommit
          have hnoact : hasActiveAppt s.appointments slid = false := by
            have := hflag av havmem
            rw [havid] at this
            rw [← this, hbf]
          refine ⟨?_, ?_, ?_⟩
          · rw [List.map_append, List.nodup_append]
            refine ⟨hnd, by simp, ?_⟩
            intro x hx
            obtain ⟨a, ha, rfl⟩ := List.mem_map.mp hx
            intro hcon
            simp only [List.map_cons, List.map_nil, List.mem_singleton] at hcon
            exact freshApptId_not_mem s.appointments a ha hcon
          · intro sl2 hmem2
            obtain ⟨sl, hsl, rfl⟩ := List.mem_map.mp hmem2
            by_cases hid : sl.id = slid
            · simp only [hid, beq_self_eq_true, if_true]
              unfold hasActiveAppt
              rw [List.any_append]
              simp
            · have : (sl.id == slid) = false := by simpa using hid
              rw [this]
              simp only [if_false, Bool.false_eq_true]
              rw [hasActiveAppt_append_other _ _ _ (by simpa using Ne.symm hid)]
              exact hflag sl hsl
          · intro a1 h1 a2 h2 hs1 hs2 heq
            rcases List.mem_append.mp h1 with h1o | h1n
            · rcases List.mem_append.mp h2 with h2o | h2n
              · exact huniq a1 h1o a2 h2o hs1 hs2 heq
              · have ha2 : a2.availability = slid := by
                  have := List.mem_singleton.mp h2n
                  rw [this]
                have : hasActiveAppt s.appointments slid = true := by
                  unfold hasActiveAppt
                  rw [List.any_eq_true]
                  refine ⟨a1, h1o, ?_⟩
                  simp [heq.trans ha2, hs1]
                rw [this] at hnoact
                cases hnoact
            · rcases List.mem_append.mp h2 with h2o | h2n
              · have ha1 : a1.availability = slid := by
                  have := List.mem_singleton.mp h1n
                  rw [this]
                have : hasActiveAppt s.appointments slid = true := by
                  unfold hasActiveAppt
                  rw [List.any_eq_true]
                  refine ⟨a2, h2o, ?_⟩
                  simp [heq.symm.trans ha1, hs2]
                rw [this] at hnoact
                cases hnoact
              · rw [List.mem_singleton.mp h1n, List.mem_singleton.mp h2n]

theorem freeSlot_appointments (sid : Nat) (s : Store) :
    (freeSlot sid s).appointments = s.appointments := by
  unfold freeSlot
  cases s.slots.find? (fun sl => sl.id == sid) <;> rfl

theorem freeSlot_flag (sid : Nat) (s : Store)
    (hother : ∀ sl ∈ s.slots, sl.id ≠ sid →
      sl.isBooked = hasActiveAppt s.appointments sl.id)
    (hself : hasActiveAppt s.appointments sid = false) :
    slotFlagInvariant (freeSlot sid s) := by
  unfold slotFlagInvariant
  rw [freeSlot_appointments]
  unfold freeSlot
  cases hfa : s.slots.find? (fun sl => sl.id == sid) with
  | none =>
      intro sl hsl
      have hnone := List.find?_eq_none.mp hfa sl hsl
      exact hother sl hsl (by simpa using hnone)
  | some av =>
      have havid : av.id = sid := by simpa using List.find?_some hfa
      intro sl2 hsl2
      obtain ⟨sl, hsl, rfl⟩ := List.mem_map.mp hsl2
      by_cases hx : sl.id = sid
      · rw [if_pos (by simpa using hx)]
        show false = hasActiveAppt s.appointments av.id
        rw [havid, hself]
      · rw [if_neg (by simpa using hx)]
        exact hother sl hsl hx

theorem saveStatus_map_id (apptId : Nat) (appt : Appointment)
    (status : AppStatus) (apps : List Appointment) (hid : appt.id = apptId) :
    (saveStatus apptId appt status apps).map (fun a => a.id) =
      apps.map (fun a => a.id) := by
  unfold saveStatus
  rw [List.map_map]
  apply List.map_congr_left
  intro a _
  simp only [Function.comp]
  by_cases hx : a.id = apptId
  · rw [if_pos (by simpa using hx)]
    show appt.id = a.id
    rw [hid, hx]
  · rw [if_neg (by simpa using hx)]

theorem saveStatus_mem (apptId : Nat) (appt : Appointment) (status : AppStatus)
    (apps : List Appointment) :
    ∀ b ∈ saveStatus apptId appt status apps,
      b = { appt with status := status } ∨ (b ∈ apps ∧ b.id ≠ apptId) := by
  intro b hb
  obtain ⟨a, ha, rfl⟩ := List.mem_map.mp hb
  by_cases hx : a.id = apptId
  · left; rw [if_pos (by simpa using hx)]
  · right
    rw [if_neg (by simpa using hx)]
    exact ⟨ha, hx⟩

theorem mem_saveStatus (apptId : Nat) (appt : Appointment) (status : AppStatus)
    (apps : List Appointment) :
    ∀ a ∈ apps, a.id ≠ apptId → a ∈ saveStatus apptId appt status apps := by
  intro a ha hx
  refine List.mem_map.mpr ⟨a, ha, ?_⟩
  rw [if_neg (by simpa using hx)]

theorem cancelAppointment_preserves_coordInv (p aid : Nat) (s : Store)
    (h : coordInv s) : coordInv (cancelAppointment p aid s).2 := by
  obtain ⟨hnd, hflag, huniq⟩ := h
  unfold cancelAppointment
  cases hf : s.appointments.find? (fun a => a.id == aid && a.professor == p) with
  | none => exact ⟨hnd, hflag, huniq⟩
  | some appt =>
      have hmem : appt ∈ s.appointments := List.mem_of_find?_eq_some hf
      have hids : appt.id = aid ∧ appt.professor = p := by
        simpa using List.find?_some hf
      by_cases hc : (appt.status == AppStatus.cancelled) = true
      · simp only [hc, if_true]
        exact ⟨hnd, hflag, huniq⟩
      · simp only [if_neg hc]
        have hcn : appt.status ≠ AppStatus.cancelled := by simpa using hc
        have hmapid := saveStatus_map_id aid appt AppStatus.cancelled s.appointments hids.1
        have hact_other : ∀ sid, sid ≠ appt.availability →
            hasActiveAppt (saveStatus aid appt AppStatus.cancelled s.appointments) sid =
              hasActiveAppt s.appointments sid := by
          intro sid hsid
          apply Bool.coe_iff_coe.mp
          unfold hasActiveAppt
          rw [List.any_eq_true, List.any_eq_true]
          constructor
          · rintro ⟨b, hb, hpb⟩
            rcases saveStatus_mem aid appt AppStatus.cancelled s.appointments b hb with
              rfl | ⟨hbm, _⟩
            · exfalso
              rw [Bool.and_eq_true] at hpb
              simpa using hpb.2
            · exact ⟨b, hbm, hpb⟩
          · rintro ⟨a, ha, hpa⟩
            by_cases hx : a.id = aid
            · exfalso
              have hae : a = appt := nodup_id_unique hnd ha hmem (hx.trans hids.1.symm)
              rw [Bool.and_eq_true, beq_iff_eq] at hpa
              exact hsid (hae ▸ hpa.1).symm
            · exact ⟨a, mem_saveStatus aid appt AppStatus.cancelled s.appointments a ha hx, hpa⟩
        have hact_self :
            hasActiveAppt (saveStatus aid appt AppStatus.cancelled s.appointments)
              appt.availability = false := by
          rw [Bool.eq_false_iff]
          intro hcon
          unfold hasActiveAppt at hcon
          rw [List.any_eq_true] at hcon
          obtain ⟨b, hb, hpb⟩ := hcon
          rw [Bool.and_eq_true, beq_iff_eq] at hpb
          have hbst : b.status ≠ AppStatus.cancelled := by simpa using hpb.2
          rcases saveStatus_mem aid appt AppStatus.cancelled s.appointments b hb with
            rfl | ⟨hbm, hbid⟩
          · exact hbst rfl
          · have hbe := huniq b hbm appt hmem hbst hcn hpb.1
            exact hbid (by rw [hbe, hids.1])
        refine ⟨?_, ?_, ?_⟩
        · rw [freeSlot_appointments]
          show ((saveStatus aid appt AppStatus.cancelled s.appointments).map
            (fun a => a.id)).Nodup
          rw [hmapid]
          exact hnd
        · apply freeSlot_flag
          · intro sl hsl hne
            show sl.isBooked =
              hasActiveAppt (saveStatus aid appt AppStatus.cancelled s.appointments) sl.id
            rw [hact_other sl.id hne]
            exact hflag sl hsl
          · exact hact_self
        · unfold activeUnique
          rw [freeSlot_appointments]
          intro a1 h1 a2 h2 hs1 hs2 heq
          rcases saveStatus_mem aid appt AppStatus.cancelled s.appointments a1 h1 with
            rfl | ⟨h1m, _⟩
          · exact absurd rfl hs1
          · rcases saveStatus_mem aid appt AppStatus.cancelled s.appointments a2 h2 with
              rfl | ⟨h2m, _⟩
            · exact absurd rfl hs2
            · exact huniq a1 h1m a2 h2m hs1 hs2 heq

theorem applyOp_preserves_coordInv (s : Store) (op : Op) (h : coordInv s) :
    coordInv (applyOp s op) := by
  cases op with
  | book now st sl notes => exact bookSlot_preserves_coordInv now st sl notes s h
  | cancel p a => exact cancelAppointment_preserves_coordInv p a s h

theorem runOps_preserves_coordInv (s : Store) (ops : List Op) (h : coordInv s) :
    coordInv (runOps s ops) := by
  induction ops generalizing s with
  | nil => exact h
  | cons op rest ih => exact ih (applyOp s op) (applyOp_preserves_coordInv s op h)

/-- Initial store of the C1 scenario: one unbooked slot, no appointments. -/
def c1cexStart : Store :=
  { slots := [{ id := 1, professor := 5, date := 14400, startTime := "10:00",
                endTime := "11:00", isBooked := false, bookedBy := none }],
    appointments := [] }

/-- Store reached by booking the slot, cancelling the appointment through
the status-update route, then setting it back to confirmed through the
status-update route. -/
def c1cexEnd : Store :=
  (updateAppointmentStatus 5 1 AppStatus.confirmed
    (updateAppointmentStatus 5 1 AppStatus.cancelled
      (bookSlot 100 7 1 "" 1 c1cexStart).2).2).2

/-- C1, counterexample: starting from a store satisfying the invariant
(one unbooked slot, no appointments), a sequence of BookSlot followed by
two UpdateAppointmentStatus calls (to cancelled, then back to confirmed)
reaches a store in which a non-cancelled appointment references the slot
while the slot's `isBooked` flag is false, so the claimed iff fails. -/
theorem c1_counterexample :
    coordInv c1cexStart ∧
    ∃ sl ∈ c1cexEnd.slots,
      ¬ (sl.isBooked = true ↔
          ∃ a ∈ c1cexEnd.appointments,
            a.availability = sl.id ∧ a.status ≠ AppStatus.cancelled) := by
  decide

/-- C1, amended: for every store satisfying the coordinator invariant
(distinct appointment ids, flag agreement, single active reference) and
every sequence of BookSlot and CancelAppointment operations, each slot of
the resulting store has `isBooked = true` iff some appointment of the
resulting store references it with status other than cancelled.
UpdateAppointmentStatus is excluded: as `c1_counterexample` shows, it can
break the relationship. -/
theorem c1_isBooked_iff_active_book_cancel (s : Store) (ops : List Op)
    (h : coordInv s) :
    ∀ sl ∈ (runOps s ops).slots,
      sl.isBooked = true ↔
        ∃ a ∈ (runOps s ops).appointments,
          a.availability = sl.id ∧ a.status ≠ AppStatus.cancelled := by
  have h2 := runOps_preserves_coordInv s ops h
  intro sl hsl
  have hfl := h2.2.1 sl hsl
  rw [hfl]
  unfold hasActiveAppt
  rw [List.any_eq_true]
  constructor
  · rintro ⟨a, ha, hpa⟩
    rw [Bool.and_eq_true, beq_iff_eq] at hpa
    exact ⟨a, ha, hpa.1, by simpa using hpa.2⟩
  · rintro ⟨a, ha, h1, hne⟩
    exact ⟨a, ha, by simp [h1, hne]⟩

/-- C1, witness: the amended theorem applied to a concrete store with one
slot and the concrete operation sequence book-then-cancel. -/
theorem c1_isBooked_iff_active_book_cancel_witness :
    coordInv c1cexStart ∧
    ∀ sl ∈ (runOps c1cexStart [Op.book 100 7 1 "", Op.cancel 5 1]).slots,
      sl.isBooked = true ↔
        ∃ a ∈ (runOps c1cexStart [Op.book 100 7 1 "", Op.cancel 5 1]).appointments,
          a.availability = sl.id ∧ a.status ≠ AppStatus.cancelled :=
  ⟨by decide,
    c1_isBooked_iff_active_book_cancel c1cexStart
      [Op.book 100 7 1 "", Op.cancel 5 1] (by decide)⟩

/-!
Per-operation theorems. Concrete fixtures follow: a professor (id 5), an
open slot and a booked slot on day 10 (midnight instant 14400 with
minutes as the unit), and a student (id 7).
-/

/-- An unbooked slot of professor 5 on day 10, 10:00–11:00. -/
def openSlot : Slot :=
  { id := 1, professor := 5, date := 14400, startTime := "10:00",
    endTime := "11:00", isBooked := false, bookedBy := none }

/-- A booked slot of professor 5 on day 10, 14:00–15:00. -/
def bookedSlot : Slot :=
  { id := 2, professor := 5, date := 14400, startTime := "14:00",
    endTime := "15:00", isBooked := true, bookedBy := some 8 }

/-- A store holding both fixture slots and the appointment that booked
the second one. -/
def demoStore : Store :=
  { slots := [openSlot, bookedSlot],
    appointments := [{ id := 4, student := 8, professor := 5, availability := 2,
                       date := 14400, startTime := "14:00", endTime := "15:00",
                       notes := "", status := .confirmed }] }

/-- C2: a book call on an existing slot whose `isBooked` flag is true
returns the already-booked Conflict and leaves the store — both the
Availability and the Appointment collections — unchanged. -/
theorem c2_book_already_booked (now studentId slotId newId : Nat)
    (notes : String) (s : Store) (av : Slot)
    (hfind : s.slots.find? (fun sl => sl.id == slotId) = some av)
    (hb : av.isBooked = true) :
    bookSlot now studentId slotId notes newId s = (.alreadyBooked, s) := by
  unfold bookSlot
  rw [hfind]
  simp [hb]

/-- C2, witness: booking the fixture booked slot fails with the Conflict
and leaves the store unchanged. -/
theorem c2_book_already_booked_witness :
    demoStore.slots.find? (fun sl => sl.id == 2) = some bookedSlot ∧
    bookedSlot.isBooked = true ∧
    bookSlot 15000 7 2 "" 9 demoStore = (.alreadyBooked, demoStore) :=
  ⟨by decide, by decide,
    c2_book_already_booked 15000 7 2 9 "" demoStore bookedSlot
      (by decide) (by decide)⟩

/-- A slot of professor 5 on day 10 starting at 23:00, used to show the
past-slot check ignores the start time. -/
def lateSlot : Slot :=
  { id := 3, professor := 5, date := 14400, startTime := "23:00",
    endTime := "23:30", isBooked := false, bookedBy := none }

/-- Store holding only the late fixture slot. -/
def lateStore : Store := { slots := [lateSlot], appointments := [] }

/-- C3, counterexample: at noon of the slot's own day (instant 15120 =
day 10, 12:00), a slot starting at 23:00 has its start moment
14400 + 1380 = 15780 in the future, yet the handler rejects it as a past
slot, because the code compares only the stored date instant (midnight)
against the current moment. -/
theorem c3_counterexample :
    (bookSlot 15120 7 3 "" 9 lateStore).1 = .pastSlot ∧
    15120 ≤ 14400 + timeMinutes "23:00" := by decide

/-- C3, amended: for an existing unbooked slot the book handler rejects
with the past-slot ValidationError exactly when the stored date instant
(midnight of the slot's date) is strictly before the current moment —
the start time plays no role — and on rejection the store is unchanged;
when the date instant is not in the past the call books the slot. -/
theorem c3_past_check_uses_date_only (now studentId slotId newId : Nat)
    (notes : String) (s : Store) (av : Slot)
    (hfind : s.slots.find? (fun sl => sl.id == slotId) = some av)
    (hb : av.isBooked = false) :
    (av.date < now → bookSlot now studentId slotId notes newId s = (.pastSlot, s)) ∧
    (now ≤ av.date →
      (bookSlot now studentId slotId notes newId s).1 =
        .booked { id := newId, student := studentId, professor := av.professor,
                  availability := slotId, date := av.date,
                  startTime := av.startTime, endTime := av.endTime,
                  notes := notes, status := .confirmed }) := by
  unfold bookSlot
  rw [hfind]
  constructor
  · intro hp
    simp [hb, hp]
  · intro hp
    have hnp : ¬ av.date < now := not_lt.mpr hp
    simp [hb, hnp]

/-- C3, witness: the amended theorem at the late fixture slot, with the
current moment at noon of day 10. -/
theorem c3_past_check_uses_date_only_witness :
    lateStore.slots.find? (fun sl => sl.id == 3) = some lateSlot ∧
    lateSlot.isBooked = false ∧
    (lateSlot.date < 15120 → bookSlot 15120 7 3 "" 9 lateStore = (.pastSlot, lateStore)) ∧
    (15120 ≤ lateSlot.date →
      (bookSlot 15120 7 3 "" 9 lateStore).1 =
        .booked { id := 9, student := 7, professor := lateSlot.professor,
                  availability := 3, date := lateSlot.date,
                  startTime := lateSlot.startTime, endTime := lateSlot.endTime,
                  notes := "", status := .confirmed }) := by
  refine ⟨by decide, by decide, ?_⟩
  exact c3_past_check_uses_date_only 15120 7 3 9 "" lateStore lateSlot
    (by decide) (by decide)

/-- Identity store fixture: professor 5 and student 7. -/
def demoUsers : List User := [{ id := 5, role := "professor" }, { id := 7, role := "student" }]

/-- A long-past unbooked slot of professor 5 on day 5 (instant 7200). -/
def pastSlot : Slot :=
  { id := 6, professor := 5, date := 7200, startTime := "10:00",
    endTime := "11:00", isBooked := false, bookedBy := none }

/-- Store holding the past fixture slot. -/
def pastStore : Store := { slots := [pastSlot], appointments := [] }

/-- C4, counterexample: at noon of day 10 (instant 15120, so today starts
at 14400), listing professor 5's slots with a date filter of day 5
returns the unbooked day-5 slot, although its date is five days before
today: supplying the date filter drops the future-only restriction. -/
theorem c4_counterexample :
    listAvailableSlotsForProfessor 15120 demoUsers 5 (some 7200) pastStore =
      .ok [pastSlot] ∧
    pastSlot.date < 14400 ∧ (15120 / 1440) * 1440 = 14400 := by decide

/-- C4, amended: the call is NotFound when the professor id resolves to
no user or to a user whose role is not professor; otherwise it returns
exactly the slots of that professor with isBooked = false and stored
date instant at or after the current moment — which excludes slots dated
today once the day has begun, since stored dates are midnights — and,
when the date filter is supplied, exactly the unbooked slots of that
professor on that stored date with no future-only restriction at all. -/
theorem c4_list_available_filters (now professorId : Nat) (users : List User)
    (dateFilter : Option Nat) (s : Store) :
    (users.find? (fun u => u.id == professorId) = none →
      listAvailableSlotsForProfessor now users professorId dateFilter s =
        .professorNotFound) ∧
    (∀ u, users.find? (fun u => u.id == professorId) = some u →
      (u.role ≠ "professor" →
        listAvailableSlotsForProfessor now users professorId dateFilter s =
          .professorNotFound) ∧
      (u.role = "professor" →
        ∃ l, listAvailableSlotsForProfessor now users professorId dateFilter s =
            .ok l ∧
          ∀ sl, sl ∈ l ↔ sl ∈ s.slots ∧ sl.professor = professorId ∧
            sl.isBooked = false ∧
            (match dateFilter with
             | none => now ≤ sl.date
             | some d => sl.date = d))) := by
  constructor
  · intro hn
    unfold listAvailableSlotsForProfessor
    rw [hn]
  · intro u hu
    constructor
    · intro hr
      unfold listAvailableSlotsForProfessor
      rw [hu]
      have : (u.role != "professor") = true := by simpa using hr
      simp [this]
    · intro hr
      unfold listAvailableSlotsForProfessor
      rw [hu]
      have : (u.role != "professor") = false := by simpa using hr
      simp only [this, Bool.false_eq_true, if_false]
      cases dateFilter with
      | none =>
          refine ⟨_, rfl, ?_⟩
          intro sl
          simp [List.mem_filter, and_assoc]
      | some d =>
          refine ⟨_, rfl, ?_⟩
          intro sl
          simp [List.mem_filter, and_assoc]

/-- C4, witness: the amended theorem at the fixture users and past store,
instantiated for professor 5 with no date filter at noon of day 10. -/
theorem c4_list_available_filters_witness :
    (demoUsers.find? (fun u => u.id == 5) = none →
      listAvailableSlotsForProfessor 15120 demoUsers 5 none pastStore =
        .professorNotFound) ∧
    (∀ u, demoUsers.find? (fun u => u.id == 5) = some u →
      (u.role ≠ "professor" →
        listAvailableSlotsForProfessor 15120 demoUsers 5 none pastStore =
          .professorNotFound) ∧
      (u.role = "professor" →
        ∃ l, listAvailableSlotsForProfessor 15120 demoUsers 5 none pastStore =
            .ok l ∧
          ∀ sl, sl ∈ l ↔ sl ∈ pastStore.slots ∧ sl.professor = 5 ∧
            sl.isBooked = false ∧
            (match (none : Option Nat) with
             | none => 15120 ≤ sl.date
             | some d => sl.date = d))) :=
  c4_list_available_filters 15120 5 demoUsers none pastStore

/-- The time format stated by the claim's words, read strictly: a
two-digit hour 00–23, a colon, and a two-digit minute 00–59. Written
from the spec sentence, for comparison with `timeRegex` from the code. -/
def specHHMM (t : String) : Bool :=
  match t.data with
  | [h1, h2, c, m1, m2] =>
      c == ':' &&
      ((digitBetween 0 1 h1 && digitBetween 0 9 h2) ||
       (h1 == '2' && digitBetween 0 3 h2)) &&
      digitBetween 0 5 m1 && digitBetween 0 9 m2
  | _ => false

/-- Empty store fixture. -/
def emptyStore : Store := { slots := [], appointments := [] }

/-- C5, counterexample: the start time string 9:30 does not match a
strict HH:MM format (its hour has a single digit), yet the create-slot
call is not rejected: the validator regex admits an optional first hour
digit, the slot is created and persisted. -/
theorem c5_counterexample :
    specHHMM "9:30" = false ∧
    createSlot 5 14400 "9:30" "10:00" 9 emptyStore =
      (.created { id := 9, professor := 5, date := 14400, startTime := "9:30",
                  endTime := "10:00", isBooked := false, bookedBy := none },
        { slots := [{ id := 9, professor := 5, date := 14400, startTime := "9:30",
                      endTime := "10:00", isBooked := false, bookedBy := none }],
          appointments := [] }) := by decide

/-- C5, amended: a create-slot call whose startTime or endTime fails the
validator regex `([0-1]?[0-9]|2[0-3]):[0-5][0-9]` — which admits one- or
two-digit hours 0–23 and two-digit minutes 00–59 — is rejected with the
ValidationError, and a call whose endTime is not chronologically
strictly after its startTime is rejected as well; in both cases the
store is unchanged and no slot is created. The end-after-start check is
the chronological time-of-day comparison, modelled from the spec since
the Availability model file is absent from the sources. -/
theorem c5_time_validation (professorId date newId : Nat)
    (startTime endTime : String) (s : Store) :
    ((timeRegex startTime && timeRegex endTime) = false →
      createSlot professorId date startTime endTime newId s =
        (.validationError, s)) ∧
    (timeMinutes endTime ≤ timeMinutes startTime →
      (createSlot professorId date startTime endTime newId s).2 = s ∧
      ∀ sl, (createSlot professorId date startTime endTime newId s).1 ≠
        .created sl) := by
  constructor
  · intro hng
    simp [createSlot, hng]
  · intro hle
    unfold createSlot
    by_cases hreg : (timeRegex startTime && timeRegex endTime) = true
    · simp only [hreg, Bool.not_true, Bool.false_eq_true, if_false]
      cases hfind : s.slots.find? (fun sl =>
          sl.professor == professorId && sl.date == date &&
          sl.startTime == startTime && sl.endTime == endTime) with
      | some ex => exact ⟨rfl, by simp⟩
      | none =>
          rw [if_pos hle]
          exact ⟨rfl, by simp⟩
    · have hng : (timeRegex startTime && timeRegex endTime) = false := by
        simpa using hreg
      simp [hng]

/-- C5, witness: the amended theorem at the strings 10:00 and 09:00 on
the empty store: the end time is chronologically before the start time
and the call is rejected without persisting a slot. -/
theorem c5_time_validation_witness :
    timeMinutes "09:00" ≤ timeMinutes "10:00" ∧
    (createSlot 5 14400 "10:00" "09:00" 9 emptyStore).2 = emptyStore ∧
    ∀ sl, (createSlot 5 14400 "10:00" "09:00" 9 emptyStore).1 ≠ .created sl :=
  ⟨by decide,
    (c5_time_validation 5 14400 9 "10:00" "09:00" emptyStore).2 (by decide)⟩

/-- The slot document a successful create-slot call persists. -/
def newSlotRec (professorId date newId : Nat) (startTime endTime : String) : Slot :=
  { id := newId, professor := professorId, date := date, startTime := startTime,
    endTime := endTime, isBooked := false, bookedBy := none }

theorem createSlot_dup (professorId date newId : Nat)
    (startTime endTime : String) (s : Store)
    (hreg : (timeRegex startTime && timeRegex endTime) = true)
    (hex : ∃ ex ∈ s.slots, ex.professor = professorId ∧ ex.date = date ∧
      ex.startTime = startTime ∧ ex.endTime = endTime) :
    createSlot professorId date startTime endTime newId s = (.duplicate, s) := by
  unfold createSlot
  simp only [hreg, Bool.not_true, Bool.false_eq_true, if_false]
  have hsome : (s.slots.find? (fun sl =>
      sl.professor == professorId && sl.date == date &&
      sl.startTime == startTime && sl.endTime == endTime)).isSome := by
    rw [List.find?_isSome]
    obtain ⟨ex, hexm, h1, h2, h3, h4⟩ := hex
    exact ⟨ex, hexm, by simp [h1, h2, h3, h4]⟩
  cases hfind : s.slots.find? (fun sl =>
      sl.professor == professorId && sl.date == date &&
      sl.startTime == startTime && sl.endTime == endTime) with
  | none => rw [hfind] at hsome; cases hsome
  | some ex => rfl

theorem createSlot_no_dup (professorId date newId : Nat)
    (startTime endTime : String) (s : Store)
    (hreg : (timeRegex startTime && timeRegex endTime) = true)
    (hord : timeMinutes startTime < timeMinutes endTime)
    (hnotid : ∀ ex ∈ s.slots, ¬(ex.professor = professorId ∧ ex.date = date ∧
      ex.startTime = startTime ∧ ex.endTime = endTime)) :
    createSlot professorId date startTime endTime newId s =
      (.created (newSlotRec professorId date newId startTime endTime),
        { s with slots := s.slots ++
            [newSlotRec professorId date newId startTime endTime] }) := by
  unfold createSlot
  simp only [hreg, Bool.not_true, Bool.false_eq_true, if_false]
  have hnone : s.slots.find? (fun sl =>
      sl.professor == professorId && sl.date == date &&
      sl.startTime == startTime && sl.endTime == endTime) = none := by
    rw [List.find?_eq_none]
    intro ex hexm hp
    apply hnotid ex hexm
    simp only [Bool.and_eq_true, beq_iff_eq] at hp
    exact ⟨hp.1.1.1, hp.1.1.2, hp.1.2, hp.2⟩
  rw [hnone]
  rw [if_neg (not_le.mpr hord)]
  rfl

/-- C6: under valid inputs, a create-slot call is rejected with the
duplicate Conflict, leaving the store unchanged, exactly when a slot
with identical (professorId, date, startTime, endTime) already exists;
otherwise the new slot is persisted with `isBooked = false` and
returned. -/
theorem c6_duplicate_or_persist (professorId date newId : Nat)
    (startTime endTime : String) (s : Store)
    (hreg : (timeRegex startTime && timeRegex endTime) = true)
    (hord : timeMinutes startTime < timeMinutes endTime) :
    ((∃ ex ∈ s.slots, ex.professor = professorId ∧ ex.date = date ∧
        ex.startTime = startTime ∧ ex.endTime = endTime) →
      createSlot professorId date startTime endTime newId s = (.duplicate, s)) ∧
    ((∀ ex ∈ s.slots, ¬(ex.professor = professorId ∧ ex.date = date ∧
        ex.startTime = startTime ∧ ex.endTime = endTime)) →
      createSlot professorId date startTime endTime newId s =
        (.created (newSlotRec professorId date newId startTime endTime),
          { s with slots := s.slots ++
              [newSlotRec professorId date newId startTime endTime] })) :=
  ⟨fun hex => createSlot_dup professorId date newId startTime endTime s hreg hex,
   fun hno => createSlot_no_dup professorId date newId startTime endTime s hreg hord hno⟩

/-- C6, witness: re-creating the fixture open slot of professor 5 is
rejected as a duplicate with the store unchanged. -/
theorem c6_duplicate_or_persist_witness :
    (timeRegex "10:00" && timeRegex "11:00") = true ∧
    (∃ ex ∈ demoStore.slots, ex.professor = 5 ∧ ex.date = 14400 ∧
      ex.startTime = "10:00" ∧ ex.endTime = "11:00") ∧
    createSlot 5 14400 "10:00" "11:00" 9 demoStore = (.duplicate, demoStore) :=
  ⟨by decide, by decide,
    (c6_duplicate_or_persist 5 14400 9 "10:00" "11:00" demoStore
      (by decide) (by decide)).1 (by decide)⟩

/-- C10: the duplicate check is exact equality on all four fields — a
slot whose time interval overlaps an existing slot of the same professor
on the same date, without matching it in all four fields, is accepted
and persisted. -/
theorem c10_overlapping_slot_accepted (professorId date newId : Nat)
    (startTime endTime : String) (s : Store)
    (hreg : (timeRegex startTime && timeRegex endTime) = true)
    (hord : timeMinutes startTime < timeMinutes endTime)
    (hnotid : ∀ ex ∈ s.slots, ¬(ex.professor = professorId ∧ ex.date = date ∧
      ex.startTime = startTime ∧ ex.endTime = endTime))
    (_hoverlap : ∃ ex ∈ s.slots, ex.professor = professorId ∧ ex.date = date ∧
      timeMinutes ex.startTime < timeMinutes endTime ∧
      timeMinutes startTime < timeMinutes ex.endTime) :
    createSlot professorId date startTime endTime newId s =
      (.created (newSlotRec professorId date newId startTime endTime),
        { s with slots := s.slots ++
            [newSlotRec professorId date newId startTime endTime] }) :=
  createSlot_no_dup professorId date newId startTime endTime s hreg hord hnotid

/-- C10, witness: professor 5 already has 10:00–11:00 on day 10; a new
10:30–11:30 slot on the same date overlaps it and is persisted. -/
theorem c10_overlapping_slot_accepted_witness :
    (timeRegex "10:30" && timeRegex "11:30") = true ∧
    (∃ ex ∈ demoStore.slots, ex.professor = 5 ∧ ex.date = 14400 ∧
      timeMinutes ex.startTime < timeMinutes "11:30" ∧
      timeMinutes "10:30" < timeMinutes ex.endTime) ∧
    createSlot 5 14400 "10:30" "11:30" 9 demoStore =
      (.created (newSlotRec 5 14400 9 "10:30" "11:30"),
        { demoStore with slots := demoStore.slots ++
            [newSlotRec 5 14400 9 "10:30" "11:30"] }) :=
  ⟨by decide, by decide,
    c10_overlapping_slot_accepted 5 14400 9 "10:30" "11:30" demoStore
      (by decide) (by decide) (by decide) (by decide)⟩

theorem freeSlot_resets (sid : Nat) (s : Store) :
    ∀ sl ∈ (freeSlot sid s).slots, sl.id = sid →
      sl.isBooked = false ∧ sl.bookedBy = none := by
  unfold freeSlot
  cases hfa : s.slots.find? (fun sl => sl.id == sid) with
  | none =>
      intro sl hsl hid
      exact absurd (by simpa using hid) (List.find?_eq_none.mp hfa sl hsl)
  | some av =>
      intro sl2 hsl2
      obtain ⟨sl, hsl, rfl⟩ := List.mem_map.mp hsl2
      by_cases hx : sl.id = sid
      · rw [if_pos (by simpa using hx)]
        exact fun _ => ⟨rfl, rfl⟩
      · rw [if_neg (by simpa using hx)]
        exact fun hid => absurd hid hx

theorem freeSlot_slots_of_none (sid : Nat) (s : Store)
    (h : s.slots.find? (fun sl => sl.id == sid) = none) :
    (freeSlot sid s).slots = s.slots := by
  unfold freeSlot
  rw [h]

/-- C7: a cancel call by the owning professor fails with the
already-cancelled Conflict and leaves both collections unchanged when
the appointment's status is already cancelled; otherwise it returns the
appointment with status cancelled, saves that status, resets every slot
carrying the referenced id to unbooked with no booker, and still
succeeds with the slot collection untouched when the referenced slot no
longer exists. -/
theorem c7_cancel_behavior (p aid : Nat) (s : Store) (appt : Appointment)
    (hfind : s.appointments.find? (fun a =>
      a.id == aid && a.professor == p) = some appt) :
    (appt.status = AppStatus.cancelled →
      cancelAppointment p aid s = (.alreadyCancelled, s)) ∧
    (appt.status ≠ AppStatus.cancelled →
      (cancelAppointment p aid s).1 =
        .cancelled { appt with status := AppStatus.cancelled } ∧
      (∀ a ∈ (cancelAppointment p aid s).2.appointments, a.id = aid →
        a.status = AppStatus.cancelled) ∧
      (∀ sl ∈ (cancelAppointment p aid s).2.slots, sl.id = appt.availability →
        sl.isBooked = false ∧ sl.bookedBy = none) ∧
      (s.slots.find? (fun sl => sl.id == appt.availability) = none →
        (cancelAppointment p aid s).1 =
          .cancelled { appt with status := AppStatus.cancelled } ∧
        (cancelAppointment p aid s).2.slots = s.slots)) := by
  constructor
  · intro hc
    unfold cancelAppointment
    rw [hfind]
    simp [hc]
  · intro hc
    have hcb : (appt.status == AppStatus.cancelled) = false := by simpa using hc
    unfold cancelAppointment
    rw [hfind]
    simp only [hcb, Bool.false_eq_true, if_false]
    refine ⟨by trivial, ?_, ?_, ?_⟩
    · intro a ha hid
      rw [freeSlot_appointments] at ha
      rcases saveStatus_mem aid appt AppStatus.cancelled s.appointments a ha with
        rfl | ⟨_, hne⟩
      · rfl
      · exact absurd hid hne
    · exact freeSlot_resets appt.availability _
    · intro hnone
      exact ⟨by trivial, freeSlot_slots_of_none appt.availability _ hnone⟩

/-- C7, witness: cancelling the fixture confirmed appointment (id 4 of
professor 5, referencing booked slot 2) succeeds, cancels it and resets
the slot. -/
theorem c7_cancel_behavior_witness :
    demoStore.appointments.find? (fun a =>
      a.id == 4 && a.professor == 5) = some
        { id := 4, student := 8, professor := 5, availability := 2,
          date := 14400, startTime := "14:00", endTime := "15:00",
          notes := "", status := .confirmed } ∧
    AppStatus.confirmed ≠ AppStatus.cancelled ∧
    (cancelAppointment 5 4 demoStore).1 =
      .cancelled { id := 4, student := 8, professor := 5, availability := 2,
                   date := 14400, startTime := "14:00", endTime := "15:00",
                   notes := "", status := .cancelled } ∧
    (∀ a ∈ (cancelAppointment 5 4 demoStore).2.appointments, a.id = 4 →
      a.status = AppStatus.cancelled) ∧
    (∀ sl ∈ (cancelAppointment 5 4 demoStore).2.slots, sl.id = 2 →
      sl.isBooked = false ∧ sl.bookedBy = none) := by
  refine ⟨by decide, by decide, ?_⟩
  have h := (c7_cancel_behavior 5 4 demoStore
    { id := 4, student := 8, professor := 5, availability := 2,
      date := 14400, startTime := "14:00", endTime := "15:00",
      notes := "", status := .confirmed } (by decide)).2 (by decide)
  exact ⟨h.1, h.2.1, h.2.2.1⟩

/-- Store fixture holding the booked slot 2 and an appointment on it
whose status is already cancelled. -/
def cancelledApptStore : Store :=
  { slots := [bookedSlot],
    appointments := [{ id := 4, student := 8, professor := 5, availability := 2,
                       date := 14400, startTime := "14:00", endTime := "15:00",
                       notes := "", status := .cancelled }] }

/-- C9: the status-update route performs no already-cancelled check: a
call by the owning professor with new status cancelled on an appointment
already cancelled succeeds, returns the appointment, resets every slot
carrying the referenced id again — while the cancel route rejects the
same appointment with the already-cancelled Conflict. -/
theorem c9_update_ignores_already_cancelled (p aid : Nat) (s : Store)
    (appt : Appointment)
    (hfind : s.appointments.find? (fun a =>
      a.id == aid && a.professor == p) = some appt)
    (hc : appt.status = AppStatus.cancelled) :
    (updateAppointmentStatus p aid AppStatus.cancelled s).1 =
      .updated { appt with status := AppStatus.cancelled } ∧
    (∀ sl ∈ (updateAppointmentStatus p aid AppStatus.cancelled s).2.slots,
      sl.id = appt.availability → sl.isBooked = false ∧ sl.bookedBy = none) ∧
    cancelAppointment p aid s = (.alreadyCancelled, s) := by
  refine ⟨?_, ?_, ?_⟩
  · unfold updateAppointmentStatus
    rw [hfind]
    simp
  · unfold updateAppointmentStatus
    rw [hfind]
    simp only [beq_self_eq_true, if_true]
    exact freeSlot_resets appt.availability _
  · unfold cancelAppointment
    rw [hfind]
    simp [hc]

/-- C9, witness: the theorem at the fixture store whose appointment 4 is
already cancelled: the status route succeeds and frees slot 2, the
cancel route rejects. -/
theorem c9_update_ignores_already_cancelled_witness :
    cancelledApptStore.appointments.find? (fun a =>
      a.id == 4 && a.professor == 5) = some
        { id := 4, student := 8, professor := 5, availability := 2,
          date := 14400, startTime := "14:00", endTime := "15:00",
          notes := "", status := .cancelled } ∧
    (updateAppointmentStatus 5 4 AppStatus.cancelled cancelledApptStore).1 =
      .updated { id := 4, student := 8, professor := 5, availability := 2,
                 date := 14400, startTime := "14:00", endTime := "15:00",
                 notes := "", status := .cancelled } ∧
    (∀ sl ∈ (updateAppointmentStatus 5 4 AppStatus.cancelled
        cancelledApptStore).2.slots,
      sl.id = 2 → sl.isBooked = false ∧ sl.bookedBy = none) ∧
    cancelAppointment 5 4 cancelledApptStore =
      (.alreadyCancelled, cancelledApptStore) := by
  refine ⟨by decide, ?_⟩
  exact c9_update_ignores_already_cancelled 5 4 cancelledApptStore
    { id := 4, student := 8, professor := 5, availability := 2,
      date := 14400, startTime := "14:00", endTime := "15:00",
      notes := "", status := .cancelled } (by decide) (by decide)

/-- The read phase of the book handler, exactly the checks the code runs
before its writes: load the slot by id and proceed only when it exists,
is not booked, and its date instant is not before the current moment.
The slot returned is the in-memory document the handler will later save
unconditionally. -/
def bookCheck (now slotId : Nat) (s : Store) : Option Slot :=
  match s.slots.find? (fun sl => sl.id == slotId) with
  | none => none
  | some av =>
      if av.isBooked then none
      else if av.date < now then none
      else some av

/-- The appointment created by the first of the two interleaved bookings
of the C8 scenario. -/
def c8FirstAppt : Appointment :=
  { id := 11, student := 7, professor := 5, availability := 1, date := 14400,
    startTime := "10:00", endTime := "11:00", notes := "", status := .confirmed }

/-- C8: the failing interleaving, evaluated on the code. Two book calls
for students 7 and 8 target the open fixture slot 1 at instant 14400.
Both read phases run against the initial store and both pass (each
returns the open slot). The success path of the handler is exactly
read-then-commit, and the commit writes the document read earlier
without re-checking `isBooked`: committing the second call after the
first (each against its own stale read) leaves two non-cancelled
appointments referencing slot 1. Only when the second call's read runs
after the first call's write does it receive the Conflict. -/
theorem c8_concurrent_double_booking :
    bookCheck 14400 1 demoStore = some openSlot ∧
    bookSlot 14400 7 1 "" 11 demoStore =
      (.booked c8FirstAppt, bookCommit 7 1 11 "" openSlot demoStore) ∧
    ((bookCommit 8 1 12 "" openSlot
        (bookCommit 7 1 11 "" openSlot demoStore)).appointments.filter
      (fun a => a.availability == 1 && !(a.status == AppStatus.cancelled))).length
        = 2 ∧
    (bookSlot 14400 8 1 "" 12 (bookCommit 7 1 11 "" openSlot demoStore)).1 =
      .alreadyBooked := by decide
